import Mathlib

/-!
Verification of the resource reconciliation contract of the
terraform-provider-azuread repository.

The Go source is shallowly embedded: every CRUD handler becomes a pure Lean
function from the local resource data and an environment (the responses the
Directory Client would give to each remote call) to the trace of performed
effects, the updated resource data and the operation result.  Strings are
modelled as `List Char` so that the identifier codec (separator splitting and
joining) is provable; `diag.Diagnostics` becomes `Except ErrKind Unit` where
`.ok ()` is the nil (success) diagnostics value.
-/

/-- Strings of the Go source, modelled as lists of characters. -/
abbrev Str : Type := List Char

/-- Error kinds distinguished by the provider's diagnostics helpers: a
duplicate-resource diagnostic from tf.ImportAsDuplicateDiag carrying the
conflicting object id, a bad-API-response diagnostic (nil / empty value
returned by the service), an explicit object-was-not-found diagnostic, a
generic propagated remote error, an identifier parse error, and a credential
generation error. -/
inductive ErrKind where
  | importAsDuplicate (resourceName : Str) (objectId : Str) (displayName : Str)
  | badApiResponse
  | notFoundError
  | remoteError
  | parseError
  | credentialGenError
  deriving DecidableEq, Repr

/-- Result of a Directory Client Get-style call `(value, status, err)`: either
success with the value, a non-nil error with HTTP status 404, or a non-nil
error with any other status. -/
inductive GetRes (α : Type) where
  | ok (v : α)
  | notFound
  | errOther
  deriving DecidableEq, Repr

/-- Attribute values written into the local state through tf.Set. -/
inductive AttrVal where
  | str (v : Str)
  | optStr (v : Option Str)
  | boolV (v : Bool)
  | optBool (v : Option Bool)
  | listStr (v : List Str)
  | optListStr (v : Option (List Str))
  deriving DecidableEq, Repr

/-- Kinds of remote Update payloads issued by the application reconciler: the
update disabling app roles, the update disabling OAuth2 permission scopes, and
the full update that applies the desired configuration (removing disabled
entries). -/
inductive UpdateKind where
  | disableAppRoles
  | disableScopes
  | full
  deriving DecidableEq, Repr

/-- Observable effects of one reconciler operation, in order of execution:
name-lock acquisition/release, remote calls, and writes of the local state
identifier. -/
inductive Ev where
  | lock (resourceName : Str) (key : Str)
  | unlock (resourceName : Str) (key : Str)
  | remoteGet (id : Str)
  | remoteList (displayName : Str)
  | remoteCreate
  | remoteUpdate (kind : UpdateKind)
  | remoteDelete (id : Str)
  | remoteAddPassword (objectId : Str)
  | remoteRemovePassword (objectId : Str) (keyId : Str)
  | remoteSetOwners (objectId : Str)
  | remoteListOwners (objectId : Option Str)
  | setId (id : Str)
  deriving DecidableEq, Repr

/-- The azuread_application resource name, used as the lock namespace. -/
def applicationResourceName : Str := "azuread_application".toList

/- ## Identifier codec (internal/services/applications/parse)

The parse package is not among the provided source files; it is modelled from
the spec. -/

/-- A composite credential identifier `{parent object ID, credential kind,
credential key ID}`. -/
structure CredentialId where
  objectId : Str
  keyType : Str
  keyId : Str
  deriving DecidableEq, Repr

/-- The identifier separator of the composite credential identifier. -/
def credentialIdSep : Char := '/'

/-- Modelled from the spec: the closed enumeration of credential kinds
accepted by the Identifier Codec (spec 4.2: `kind` is a closed enumeration,
e.g. "password", "key"). -/
def credentialKinds : List Str := ["password".toList, "key".toList]

/-- parse.NewCredentialID: constructs the composite identifier value. -/
def NewCredentialID (objectId keyType keyId : Str) : CredentialId :=
  { objectId := objectId, keyType := keyType, keyId := keyId }

/-- CredentialId.String: renders `{objectId}/{keyType}/{keyId}` with the fixed
separator and field order. -/
def CredentialId.render (id : CredentialId) : Str :=
  id.objectId ++ credentialIdSep :: id.keyType ++ credentialIdSep :: id.keyId

/-- Modelled from the spec: the decode half of the Identifier Codec
(parse.CredentialID is not under src/).  Splits on the separator, requires
exactly three fields, requires the parent and key fields to be non-empty and
the kind to belong to the closed enumeration; every other shape is a
MalformedIdentifier parse failure (`none`). -/
def credentialID (s : Str) : Option CredentialId :=
  match s.splitOn credentialIdSep with
  | [a, b, c] =>
    if a ≠ [] ∧ c ≠ [] ∧ b ∈ credentialKinds then
      some { objectId := a, keyType := b, keyId := c }
    else
      none
  | _ => none

/-- parse.PasswordID: decodes a composite identifier and requires the
password credential kind. -/
def PasswordID (s : Str) : Option CredentialId :=
  match credentialID s with
  | some id => if id.keyType = "password".toList then some id else none
  | none => none

/-- Modelled from the spec: parse.OldPasswordID is not under src/.  The legacy
(v0) identifier carries the parent object id and the credential key id joined
by the separator, tagged with the password kind; any other separator count or
an empty field fails to parse. -/
def OldPasswordID (s : Str) : Option CredentialId :=
  match s.splitOn credentialIdSep with
  | [a, b] =>
    if a ≠ [] ∧ b ≠ [] then
      some { objectId := a, keyType := "password".toList, keyId := b }
    else
      none
  | _ => none

/-- resourceApplicationPasswordInstanceStateUpgradeV0 restricted to the one
state entry it touches (`rawState["id"]`): parses the stored identifier with
the legacy codec and replaces it by the rendered current-format identifier;
on a parse failure the raw state is returned unchanged together with the
error. -/
def resourceApplicationPasswordInstanceStateUpgradeV0 (rawId : Str) :
    Str × Option ErrKind :=
  match OldPasswordID rawId with
  | none => (rawId, some .parseError)
  | some newId => (newId.render, none)

/-- A credential identifier is valid when its parent and key fields are
non-empty and separator-free and its kind belongs to the closed enumeration. -/
def ValidCredentialId (t : CredentialId) : Prop :=
  t.objectId ≠ [] ∧ credentialIdSep ∉ t.objectId ∧
    t.keyId ≠ [] ∧ credentialIdSep ∉ t.keyId ∧ t.keyType ∈ credentialKinds

instance (t : CredentialId) : Decidable (ValidCredentialId t) := by
  unfold ValidCredentialId; infer_instance

/- ### Codec lemmas -/

theorem mem_splitOn_not_mem {α : Type} [DecidableEq α] (x : α) :
    ∀ (xs : List α), ∀ l ∈ xs.splitOn x, x ∉ l := by
  intro xs
  induction xs with
  | nil =>
    intro l hl
    simp only [List.splitOn_nil, List.mem_singleton] at hl
    simp [hl]
  | cons a as ih =>
    intro l hl
    by_cases hax : a = x
    · subst hax
      rw [show (a :: as).splitOn a = [] :: as.splitOn a by
        simp [List.splitOn, List.splitOnP_cons]] at hl
      rcases List.mem_cons.mp hl with h | h
      · simp [h]
      · exact ih l h
    · rw [show (a :: as).splitOn x = (as.splitOn x).modifyHead (List.cons a) by
        simp [List.splitOn, List.splitOnP_cons, hax]] at hl
      rcases h0 : as.splitOn x with _ | ⟨hd, tl⟩
      · exact absurd h0 (by simpa [List.splitOn] using List.splitOnP_ne_nil _ as)
      · rw [h0] at hl
        simp only [List.modifyHead, List.mem_cons] at hl
        rcases hl with h | h
        · subst h
          intro hx
          rcases List.mem_cons.mp hx with h | h
          · exact hax h.symm
          · exact ih hd (by simp [h0]) h
        · exact ih l (by simp [h0, h])

theorem render_eq_intercalate (t : CredentialId) :
    t.render = [credentialIdSep].intercalate [t.objectId, t.keyType, t.keyId] := by
  simp [CredentialId.render, List.intercalate, List.intersperse]

theorem splitOn_render (t : CredentialId)
    (h1 : credentialIdSep ∉ t.objectId) (h2 : credentialIdSep ∉ t.keyType)
    (h3 : credentialIdSep ∉ t.keyId) :
    t.render.splitOn credentialIdSep = [t.objectId, t.keyType, t.keyId] := by
  rw [render_eq_intercalate]
  refine List.splitOn_intercalate _ credentialIdSep ?_ (by simp)
  intro l hl
  simp only [List.mem_cons, List.not_mem_nil, or_false] at hl
  rcases hl with h | h | h <;> rw [h] <;> assumption

theorem keyType_sep_free (t : CredentialId) (hk : t.keyType ∈ credentialKinds) :
    credentialIdSep ∉ t.keyType := by
  simp only [credentialKinds, List.mem_cons, List.not_mem_nil, or_false] at hk
  rcases hk with h | h <;> rw [h] <;> decide

theorem credentialID_render (t : CredentialId) (ht : ValidCredentialId t) :
    credentialID t.render = some t := by
  obtain ⟨h1, h2, h3, h4, h5⟩ := ht
  unfold credentialID
  rw [splitOn_render t h2 (keyType_sep_free t h5) h4]
  simp [h1, h3, h5]

theorem credentialID_sound (s : Str) (t : CredentialId)
    (h : credentialID s = some t) : ValidCredentialId t ∧ t.render = s := by
  unfold credentialID at h
  rcases hs : s.splitOn credentialIdSep with _ | ⟨a, _ | ⟨b, _ | ⟨c, _ | ⟨d, l⟩⟩⟩⟩ <;>
      rw [hs] at h
  · simp at h
  · simp at h
  · simp at h
  · dsimp only at h
    split at h
    · rename_i hc
      injection h with h
      cases h
      obtain ⟨h1, h3, h5⟩ := hc
      have hmem := mem_splitOn_not_mem credentialIdSep s
      refine ⟨⟨h1, ?_, h3, ?_, h5⟩, ?_⟩
      · exact hmem a (by simp [hs])
      · exact hmem c (by simp [hs])
      · have hjoin := List.intercalate_splitOn s credentialIdSep
        rw [hs] at hjoin
        simpa [render_eq_intercalate] using hjoin
    · cases h
  · simp at h

theorem credentialID_malformed (s : Str)
    (h : ∀ t, ValidCredentialId t → t.render ≠ s) : credentialID s = none := by
  rcases hd : credentialID s with _ | t
  · rfl
  · obtain ⟨hv, hr⟩ := credentialID_sound s t hd
    exact absurd hr (h t hv)

/- ## Domains data source (internal/services/domains/domains_data_source.go) -/

/-- msgraph.Domain: the remote domain record; pointer fields are options. -/
structure MsDomain where
  id : Option Str
  authenticationType : Option Str
  isAdminManaged : Option Bool
  isDefault : Option Bool
  isInitial : Option Bool
  isRoot : Option Bool
  isVerified : Option Bool
  supportedServices : Option (List Str)
  deriving DecidableEq, Repr

/-- The filter attributes of the domains data source. -/
structure DomainsFilter where
  adminManaged : Bool
  onlyDefault : Bool
  onlyInitial : Bool
  onlyRoot : Bool
  includeUnverified : Bool
  supportsServices : List Str
  deriving DecidableEq, Repr

/-- The inner counting loop of the supports_services filter: one increment per
needed service that occurs among the domain's supported services. -/
def supportedCount (needed : List Str) (supported : List Str) : Nat :=
  match needed with
  | [] => 0
  | n :: rest =>
    (if supported.contains n then 1 else 0) + supportedCount rest supported

/-- The filter loop of domainsDataSourceRead (lines 130-177): each `continue`
of the Go loop is a dropped element, and only domains with a non-nil ID are
appended to the `domains` result. -/
def domainsDataSourceReadFilter (f : DomainsFilter) :
    List MsDomain → List MsDomain
  | [] => []
  | v :: rest =>
    if f.adminManaged ∧ v.isAdminManaged = some false then
      domainsDataSourceReadFilter f rest
    else if f.onlyDefault ∧ v.isDefault = some false then
      domainsDataSourceReadFilter f rest
    else if f.onlyInitial ∧ v.isInitial = some false then
      domainsDataSourceReadFilter f rest
    else if f.onlyRoot ∧ v.isRoot = some false then
      domainsDataSourceReadFilter f rest
    else if ¬f.includeUnverified ∧ v.isVerified = some false then
      domainsDataSourceReadFilter f rest
    else if f.supportsServices.length > 0 ∧
        (∃ ss, v.supportedServices = some ss ∧
          supportedCount f.supportsServices ss < f.supportsServices.length) then
      domainsDataSourceReadFilter f rest
    else
      match v.id with
      | some _ => v :: domainsDataSourceReadFilter f rest
      | none => domainsDataSourceReadFilter f rest

/-- The domain_name entries collected alongside the filtered records. -/
def domainsDataSourceReadNames (f : DomainsFilter) (l : List MsDomain) :
    List (Option Str) :=
  (domainsDataSourceReadFilter f l).map (·.id)

/- ## Application resource (src/unnamed/part_000)

The expand/flatten field-mapping helpers and the tf state helpers are not
under src/; attribute values are carried opaquely (an expander is a function
parameter where its result shape matters) and tf.Set is modelled as recording
the written attribute. -/

/-- msgraph.PasswordCredential: pointer fields are options; date values are
carried as opaque rendered strings. -/
structure PasswordCredential where
  keyId : Option Str
  secretText : Option Str
  displayName : Option Str
  startDateTime : Option Str
  endDateTime : Option Str
  deriving DecidableEq, Repr

/-- msgraph.Application: the remote application record.  Attribute-bag fields
hold the opaque flattened value; SignInAudience is a plain string in msgraph. -/
structure MsApplication where
  id : Option Str
  appId : Option Str
  api : Option Str
  appRoles : Option Str
  displayName : Option Str
  isFallbackPublicClient : Option Bool
  groupMembershipClaims : Option Str
  identifierUris : Option (List Str)
  optionalClaims : Option Str
  requiredResourceAccess : Option Str
  signInAudience : Str
  web : Option Str
  passwordCredentials : Option (List PasswordCredential)
  deriving DecidableEq, Repr

/-- The local resource data of azuread_application: the state identifier, the
configured attributes consulted by the CRUD handlers, the change marks
(d.HasChange) and the log of attribute writes (tf.Set). -/
structure AppData where
  id : Str
  displayName : Str
  preventDuplicateNames : Bool
  api : Str
  appRole : Str
  fallbackPublicClientEnabled : Bool
  groupMembershipClaims : Str
  identifierUris : List Str
  optionalClaims : Str
  requiredResourceAccess : Str
  signInAudience : Str
  web : Str
  owners : List Str
  hasChange : Str → Bool
  attrs : List (Str × AttrVal)

/-- tf.Set: records an attribute write into the local state. -/
def tfSet (d : AppData) (k : Str) (v : AttrVal) : AppData :=
  { d with attrs := (k, v) :: d.attrs }

/-- The environment of applicationResourceRead: the Get response and the
ListOwners response. -/
structure AppReadEnv where
  get : GetRes MsApplication
  listOwners : GetRes (List Str)
  deriving DecidableEq, Repr

/-- applicationResourceRead: a 404 from Get clears the state identifier and
succeeds; any other Get failure is an error with the identifier untouched;
on success the record is flattened into state and owners are listed. -/
def applicationResourceRead (d : AppData) (env : AppReadEnv) :
    List Ev × AppData × Except ErrKind Unit :=
  match env.get with
  | .notFound => ([.remoteGet d.id], { d with id := [] }, .ok ())
  | .errOther => ([.remoteGet d.id], d, .error .remoteError)
  | .ok app =>
    let d := tfSet d "api".toList (.optStr app.api)
    let d := tfSet d "app_role".toList (.optStr app.appRoles)
    let d := tfSet d "application_id".toList (.optStr app.appId)
    let d := tfSet d "display_name".toList (.optStr app.displayName)
    let d := tfSet d "fallback_public_client_enabled".toList
      (.optBool app.isFallbackPublicClient)
    let d := tfSet d "group_membership_claims".toList
      (.optStr app.groupMembershipClaims)
    let d := tfSet d "identifier_uris".toList (.optListStr app.identifierUris)
    let d := tfSet d "object_id".toList (.optStr app.id)
    let d := tfSet d "optional_claims".toList (.optStr app.optionalClaims)
    let d := tfSet d "required_resource_access".toList
      (.optStr app.requiredResourceAccess)
    let d := tfSet d "sign_in_audience".toList (.str app.signInAudience)
    let d := tfSet d "web".toList (.optStr app.web)
    let d := tfSet d "prevent_duplicate_names".toList
      (.boolV d.preventDuplicateNames)
    match env.listOwners with
    | .ok owners =>
      ([.remoteGet d.id, .remoteListOwners app.id],
        tfSet d "owners".toList (.listStr owners), .ok ())
    | _ =>
      ([.remoteGet d.id, .remoteListOwners app.id], d, .error .remoteError)

/-- The environment of a delete handler: the preliminary Get response and the
Delete response. -/
structure DeleteEnv (α : Type) where
  get : GetRes α
  delete : Except Unit Unit

/-- applicationResourceDelete: Get first; a 404 there is reported as an
explicit not-found error, any other Get failure as a remote error; otherwise
the remote delete is issued. -/
def applicationResourceDelete (d : AppData) (env : DeleteEnv MsApplication) :
    List Ev × Except ErrKind Unit :=
  match env.get with
  | .notFound => ([.remoteGet d.id], .error .notFoundError)
  | .errOther => ([.remoteGet d.id], .error .remoteError)
  | .ok _ =>
    match env.delete with
    | .error _ => ([.remoteGet d.id, .remoteDelete d.id], .error .remoteError)
    | .ok _ => ([.remoteGet d.id, .remoteDelete d.id], .ok ())

/-- Modelled from the spec: applicationSetOwners is not under src/.  Per the
spec, a sub-collection mutation (setting owners) runs under the Name Lock
keyed by the parent object id and the lock is released on every exit path. -/
def applicationSetOwners (appId : Str) (result : Except Unit Unit) :
    List Ev × Except ErrKind Unit :=
  ([.lock applicationResourceName appId, .remoteSetOwners appId,
      .unlock applicationResourceName appId],
    match result with
    | .ok _ => .ok ()
    | .error _ => .error .remoteError)

/-- The environment of applicationResourceCreate. -/
structure AppCreateEnv where
  findByName : Except Unit (Option (List MsApplication))
  create : Except Unit MsApplication
  setOwners : Except Unit Unit
  read : AppReadEnv

/-- The duplicate-name guard of applicationResourceCreate: when enabled, a
search failure is an error, a first match with a nil object id is a
bad-API-response error, and any other first match is the distinguished
duplicate-resource error carrying the conflicting object id. -/
def applicationCreateDupGuard (d : AppData)
    (findByName : Except Unit (Option (List MsApplication))) :
    Except ErrKind Unit :=
  if d.preventDuplicateNames then
    match findByName with
    | .error _ => .error .remoteError
    | .ok result =>
      match result with
      | some (existingApp :: _) =>
        match existingApp.id with
        | none => .error .badApiResponse
        | some eid =>
          .error (.importAsDuplicate applicationResourceName eid d.displayName)
      | _ => .ok ()
  else
    .ok ()

/-- applicationResourceCreate: optional duplicate-name guard, remote create,
validation of the returned object id, persisting the identifier, the owners
follow-up write, then the read-back. -/
def applicationResourceCreate (d : AppData) (env : AppCreateEnv) :
    List Ev × AppData × Except ErrKind Unit :=
  let guardEvs : List Ev :=
    if d.preventDuplicateNames then [.remoteList d.displayName] else []
  match applicationCreateDupGuard d env.findByName with
  | .error e => (guardEvs, d, .error e)
  | .ok _ =>
    match env.create with
    | .error _ => (guardEvs ++ [.remoteCreate], d, .error .remoteError)
    | .ok app =>
      match app.id with
      | none => (guardEvs ++ [.remoteCreate], d, .error .badApiResponse)
      | some aid =>
        if aid = [] then
          (guardEvs ++ [.remoteCreate], d, .error .badApiResponse)
        else
          let d1 := { d with id := aid }
          let so := applicationSetOwners aid env.setOwners
          match so.2 with
          | .error e =>
            (guardEvs ++ [.remoteCreate, .setId aid] ++ so.1, d1, .error e)
          | .ok _ =>
            let r := applicationResourceRead d1 env.read
            (guardEvs ++ [.remoteCreate, .setId aid] ++ so.1 ++ r.1,
              r.2.1, r.2.2)

/-- The expand helpers applied while building the application update payload;
they live outside src/, so their value mapping is kept abstract as function
parameters (only the shape of the payload matters to the claims). -/
structure AppExpanders where
  expandApi : Str → Option Str
  expandAppRoles : Str → Option Str
  expandGroupMembershipClaims : Str → Option Str
  expandStringSlicePtr : List Str → Option (List Str)
  expandOptionalClaims : Str → Option Str
  expandRequiredResourceAccess : Str → Option Str
  expandWeb : Str → Option Str

/-- The `properties` payload of applicationResourceUpdate (part_000 lines
454-466): every field is built from the current configuration; no field is
guarded by a change mark. -/
def applicationUpdatePayload (exp : AppExpanders) (d : AppData) :
    MsApplication :=
  { id := some d.id
    appId := none
    api := exp.expandApi d.api
    appRoles := exp.expandAppRoles d.appRole
    displayName := some d.displayName
    isFallbackPublicClient := some d.fallbackPublicClientEnabled
    groupMembershipClaims := exp.expandGroupMembershipClaims d.groupMembershipClaims
    identifierUris := exp.expandStringSlicePtr d.identifierUris
    optionalClaims := exp.expandOptionalClaims d.optionalClaims
    requiredResourceAccess := exp.expandRequiredResourceAccess d.requiredResourceAccess
    signInAudience := d.signInAudience
    web := exp.expandWeb d.web
    passwordCredentials := none }

/-- The `properties` payload of applicationResourceCreate (part_000 lines
398-409): same construction, without the object id. -/
def applicationCreatePayload (exp : AppExpanders) (d : AppData) :
    MsApplication :=
  { applicationUpdatePayload exp d with id := none }

/-- Modelled from the spec: applicationDisableAppRoles is not under src/.
Per the spec it computes the app-role entries present remotely but removed or
changed in the desired state and, when there are any, issues an update
disabling exactly those entries; its failure aborts the caller. -/
def applicationDisableAppRoles (needsDisabling : Bool)
    (result : Except Unit Unit) : List Ev × Except ErrKind Unit :=
  if needsDisabling then
    ([.remoteUpdate .disableAppRoles],
      match result with
      | .ok _ => .ok ()
      | .error _ => .error .remoteError)
  else
    ([], .ok ())

/-- Modelled from the spec: applicationDisableOauth2PermissionScopes is not
under src/; same protocol as the app-role disabling step, for OAuth2
permission scopes. -/
def applicationDisableOauth2PermissionScopes (needsDisabling : Bool)
    (result : Except Unit Unit) : List Ev × Except ErrKind Unit :=
  if needsDisabling then
    ([.remoteUpdate .disableScopes],
      match result with
      | .ok _ => .ok ()
      | .error _ => .error .remoteError)
  else
    ([], .ok ())

/-- The duplicate-name guard loop of applicationResourceUpdate: every returned
match is inspected; a nil object id is a bad-API-response error and an id
different from the application being updated is the distinguished
duplicate-resource error carrying that id. -/
def applicationUpdateDupCheck (applicationId displayName : Str) :
    List MsApplication → Except ErrKind Unit
  | [] => .ok ()
  | existingApp :: rest =>
    match existingApp.id with
    | none => .error .badApiResponse
    | some eid =>
      if eid ≠ applicationId then
        .error (.importAsDuplicate applicationResourceName eid displayName)
      else
        applicationUpdateDupCheck applicationId displayName rest

/-- The environment of applicationResourceUpdate. -/
structure AppUpdateEnv where
  findByName : Except Unit (Option (List MsApplication))
  rolesNeedDisabling : Bool
  disableRoles : Except Unit Unit
  scopesNeedDisabling : Bool
  disableScopes : Except Unit Unit
  update : Except Unit Unit
  setOwners : Except Unit Unit
  read : AppReadEnv

/-- The stage of applicationResourceUpdate that follows a passed
duplicate-name guard: the app-role and permission-scope
disable-before-delete steps, the full update, the owners follow-up write,
then the read-back. -/
def applicationUpdateMain (d : AppData) (env : AppUpdateEnv) :
    List Ev × AppData × Except ErrKind Unit :=
  let dr := applicationDisableAppRoles env.rolesNeedDisabling env.disableRoles
  match dr.2 with
  | .error e => (dr.1, d, .error e)
  | .ok _ =>
    let ds := applicationDisableOauth2PermissionScopes
      env.scopesNeedDisabling env.disableScopes
    match ds.2 with
    | .error e => (dr.1 ++ ds.1, d, .error e)
    | .ok _ =>
      match env.update with
      | .error _ =>
        (dr.1 ++ ds.1 ++ [.remoteUpdate .full], d, .error .remoteError)
      | .ok _ =>
        let so := applicationSetOwners d.id env.setOwners
        match so.2 with
        | .error e =>
          (dr.1 ++ ds.1 ++ [.remoteUpdate .full] ++ so.1, d, .error e)
        | .ok _ =>
          let r := applicationResourceRead d env.read
          (dr.1 ++ ds.1 ++ [.remoteUpdate .full] ++ so.1 ++ r.1,
            r.2.1, r.2.2)

/-- The duplicate-name guard result of applicationResourceUpdate. -/
def applicationUpdateDupGuard (d : AppData)
    (findByName : Except Unit (Option (List MsApplication))) :
    Except ErrKind Unit :=
  if d.preventDuplicateNames then
    match findByName with
    | .error _ => .error .remoteError
    | .ok (some result) => applicationUpdateDupCheck d.id d.displayName result
    | .ok none => .ok ()
  else
    .ok ()

/-- applicationResourceUpdate: optional duplicate-name guard, then the main
update stage. -/
def applicationResourceUpdate (d : AppData) (env : AppUpdateEnv) :
    List Ev × AppData × Except ErrKind Unit :=
  let guardEvs : List Ev :=
    if d.preventDuplicateNames then [.remoteList d.displayName] else []
  match applicationUpdateDupGuard d env.findByName with
  | .error e => (guardEvs, d, .error e)
  | .ok _ =>
    let m := applicationUpdateMain d env
    (guardEvs ++ m.1, m.2.1, m.2.2)

/- ## User resource (src/internal/services/users/user_resource.go) -/

/-- msgraph.UserPasswordProfile. -/
structure UserPasswordProfile where
  forceChangePasswordNextSignIn : Bool
  password : Str
  deriving DecidableEq, Repr

/-- msgraph.User: pointer fields are options; utils.String, utils.Bool and
utils.NullableString always allocate, so fields built through them are `some`. -/
structure MsUser where
  id : Option Str
  accountEnabled : Option Bool
  city : Option Str
  companyName : Option Str
  country : Option Str
  department : Option Str
  displayName : Option Str
  givenName : Option Str
  jobTitle : Option Str
  mail : Option Str
  mailNickname : Option Str
  mobilePhone : Option Str
  officeLocation : Option Str
  onPremisesImmutableId : Option Str
  onPremisesSamAccountName : Option Str
  onPremisesUserPrincipalName : Option Str
  passwordProfile : Option UserPasswordProfile
  postalCode : Option Str
  stateProv : Option Str
  streetAddress : Option Str
  surname : Option Str
  usageLocation : Option Str
  userPrincipalName : Option Str
  userType : Option Str
  deriving DecidableEq, Repr

/-- The local resource data of azuread_user. -/
structure UserData where
  id : Str
  accountEnabled : Bool
  forcePasswordChange : Bool
  city : Str
  companyName : Str
  country : Str
  department : Str
  displayName : Str
  givenName : Str
  jobTitle : Str
  mailNickname : Str
  mobilePhone : Str
  officeLocation : Str
  onpremisesImmutableId : Str
  password : Str
  postalCode : Str
  stateProv : Str
  streetAddress : Str
  surname : Str
  usageLocation : Str
  hasChange : Str → Bool
  attrs : List (Str × AttrVal)

/-- tf.Set for the user resource data. -/
def tfSetU (d : UserData) (k : Str) (v : AttrVal) : UserData :=
  { d with attrs := (k, v) :: d.attrs }

/-- The `properties` payload of userResourceUpdate (lines 242-271): every
field except the password profile and the on-premises immutable id is built
unconditionally from the current configuration; exactly those two are guarded
by d.HasChange. -/
def userUpdatePayload (d : UserData) : MsUser :=
  { id := some d.id
    accountEnabled := some d.accountEnabled
    city := some d.city
    companyName := some d.companyName
    country := some d.country
    department := some d.department
    displayName := some d.displayName
    givenName := some d.givenName
    jobTitle := some d.jobTitle
    mail := none
    mailNickname := some d.mailNickname
    mobilePhone := some d.mobilePhone
    officeLocation := some d.officeLocation
    onPremisesImmutableId :=
      if d.hasChange "onpremises_immutable_id".toList then
        some d.onpremisesImmutableId
      else
        none
    onPremisesSamAccountName := none
    onPremisesUserPrincipalName := none
    passwordProfile :=
      if d.hasChange "password".toList then
        some { forceChangePasswordNextSignIn := d.forcePasswordChange
               password := d.password }
      else
        none
    postalCode := some d.postalCode
    stateProv := some d.stateProv
    streetAddress := some d.streetAddress
    surname := some d.surname
    usageLocation := some d.usageLocation
    userPrincipalName := none
    userType := none }

/-- The environment of userResourceRead: the Get response. -/
structure UserReadEnv where
  get : GetRes MsUser
  deriving DecidableEq, Repr

/-- userResourceRead: a 404 clears the state identifier and succeeds; any
other Get failure is an error with the identifier untouched. -/
def userResourceRead (d : UserData) (env : UserReadEnv) :
    List Ev × UserData × Except ErrKind Unit :=
  match env.get with
  | .notFound => ([.remoteGet d.id], { d with id := [] }, .ok ())
  | .errOther => ([.remoteGet d.id], d, .error .remoteError)
  | .ok user =>
    let d := tfSetU d "account_enabled".toList (.optBool user.accountEnabled)
    let d := tfSetU d "city".toList (.optStr user.city)
    let d := tfSetU d "company_name".toList (.optStr user.companyName)
    let d := tfSetU d "country".toList (.optStr user.country)
    let d := tfSetU d "department".toList (.optStr user.department)
    let d := tfSetU d "display_name".toList (.optStr user.displayName)
    let d := tfSetU d "given_name".toList (.optStr user.givenName)
    let d := tfSetU d "job_title".toList (.optStr user.jobTitle)
    let d := tfSetU d "mail".toList (.optStr user.mail)
    let d := tfSetU d "mail_nickname".toList (.optStr user.mailNickname)
    let d := tfSetU d "mobile_phone".toList (.optStr user.mobilePhone)
    let d := tfSetU d "object_id".toList (.optStr user.id)
    let d := tfSetU d "office_location".toList (.optStr user.officeLocation)
    let d := tfSetU d "onpremises_immutable_id".toList
      (.optStr user.onPremisesImmutableId)
    let d := tfSetU d "onpremises_sam_account_name".toList
      (.optStr user.onPremisesSamAccountName)
    let d := tfSetU d "onpremises_user_principal_name".toList
      (.optStr user.onPremisesUserPrincipalName)
    let d := tfSetU d "postal_code".toList (.optStr user.postalCode)
    let d := tfSetU d "state".toList (.optStr user.stateProv)
    let d := tfSetU d "street_address".toList (.optStr user.streetAddress)
    let d := tfSetU d "surname".toList (.optStr user.surname)
    let d := tfSetU d "usage_location".toList (.optStr user.usageLocation)
    let d := tfSetU d "user_principal_name".toList
      (.optStr user.userPrincipalName)
    let d := tfSetU d "user_type".toList (.optStr user.userType)
    ([.remoteGet d.id], d, .ok ())

/-- The environment of userResourceUpdate. -/
structure UserUpdateEnv where
  update : Except Unit Unit
  read : UserReadEnv

/-- userResourceUpdate: builds the payload, issues the remote update and
reads back. -/
def userResourceUpdate (d : UserData) (env : UserUpdateEnv) :
    List Ev × UserData × Except ErrKind Unit :=
  let _properties := userUpdatePayload d
  match env.update with
  | .error _ => ([.remoteUpdate .full], d, .error .remoteError)
  | .ok _ =>
    let r := userResourceRead d env.read
    ([.remoteUpdate .full] ++ r.1, r.2.1, r.2.2)

/-- userResourceDelete: Get first; a 404 there is reported as an explicit
not-found error; otherwise the remote delete is issued. -/
def userResourceDelete (d : UserData) (env : DeleteEnv MsUser) :
    List Ev × Except ErrKind Unit :=
  match env.get with
  | .notFound => ([.remoteGet d.id], .error .notFoundError)
  | .errOther => ([.remoteGet d.id], .error .remoteError)
  | .ok _ =>
    match env.delete with
    | .error _ => ([.remoteGet d.id, .remoteDelete d.id], .error .remoteError)
    | .ok _ => ([.remoteGet d.id, .remoteDelete d.id], .ok ())

/- ## Access package resource request resource
(src/internal/services/identitygovernance/access_package_resource_request_resource.go) -/

/-- msgraph.AccessPackageResourceRequest (the fields read back into state). -/
structure MsAccessPackageResourceRequest where
  id : Option Str
  catalogId : Option Str
  expirationDateTime : Option Str
  isValidationOnly : Option Bool
  justification : Option Str
  requestState : Option Str
  requestStatus : Option Str
  requestType : Option Str
  deriving DecidableEq, Repr

/-- The local resource data of azuread_access_package_resource_request. -/
structure AccessData where
  id : Str
  attrs : List (Str × AttrVal)
  deriving DecidableEq, Repr

/-- tf.Set for the access package resource request data. -/
def tfSetA (d : AccessData) (k : Str) (v : AttrVal) : AccessData :=
  { d with attrs := (k, v) :: d.attrs }

/-- accessPackageResourceRequestResourceRead: a 404 clears the state
identifier and succeeds; any other Get failure is an error with the
identifier untouched. -/
def accessPackageResourceRequestResourceRead (d : AccessData)
    (env : GetRes MsAccessPackageResourceRequest) :
    List Ev × AccessData × Except ErrKind Unit :=
  match env with
  | .notFound => ([.remoteGet d.id], { d with id := [] }, .ok ())
  | .errOther => ([.remoteGet d.id], d, .error .remoteError)
  | .ok req =>
    let d := tfSetA d "catalog_id".toList (.optStr req.catalogId)
    let d := tfSetA d "expiration_date_time".toList
      (.optStr req.expirationDateTime)
    let d := tfSetA d "is_validation_only".toList
      (.optBool req.isValidationOnly)
    let d := tfSetA d "justification".toList (.optStr req.justification)
    let d := tfSetA d "request_state".toList (.optStr req.requestState)
    let d := tfSetA d "request_status".toList (.optStr req.requestStatus)
    let d := tfSetA d "request_type".toList (.optStr req.requestType)
    ([.remoteGet d.id], d, .ok ())

/-- accessPackageResourceRequestResourceDelete: Get first; a 404 there means
the object is already deleted and the delete succeeds as a no-op; otherwise
the remote delete is issued. -/
def accessPackageResourceRequestResourceDelete (d : AccessData)
    (env : DeleteEnv MsAccessPackageResourceRequest) :
    List Ev × Except ErrKind Unit :=
  match env.get with
  | .notFound => ([.remoteGet d.id], .ok ())
  | .errOther => ([.remoteGet d.id], .error .remoteError)
  | .ok _ =>
    match env.delete with
    | .error _ => ([.remoteGet d.id, .remoteDelete d.id], .error .remoteError)
    | .ok _ => ([.remoteGet d.id, .remoteDelete d.id], .ok ())

/- ## Application password resource (src/unnamed/part_001) -/

/-- The local resource data of azuread_application_password: the composite
state identifier and the configured parent object id. -/
structure AppPasswordData where
  id : Str
  applicationObjectId : Str
  attrs : List (Str × AttrVal)
  deriving DecidableEq, Repr

/-- tf.Set / d.Set for the application password resource data. -/
def tfSetP (d : AppPasswordData) (k : Str) (v : AttrVal) : AppPasswordData :=
  { d with attrs := (k, v) :: d.attrs }

/-- The credential lookup loop of applicationPasswordResourceRead: the first
stored credential whose non-nil key id equals the request key id. -/
def findCredential (keyId : Str) : List PasswordCredential →
    Option PasswordCredential
  | [] => none
  | cred :: rest =>
    match cred.keyId with
    | some k => if k = keyId then some cred else findCredential keyId rest
    | none => findCredential keyId rest

/-- The environment of applicationPasswordResourceRead. -/
structure AppPwReadEnv where
  get : GetRes MsApplication
  deriving DecidableEq, Repr

/-- applicationPasswordResourceRead: parses the composite identifier, fetches
the parent application (a 404 clears state and succeeds), and looks the
credential up in the parent's password credential list (a missing credential
clears state and succeeds). -/
def applicationPasswordResourceRead (d : AppPasswordData)
    (env : AppPwReadEnv) : List Ev × AppPasswordData × Except ErrKind Unit :=
  match PasswordID d.id with
  | none => ([], d, .error .parseError)
  | some cid =>
    match env.get with
    | .notFound => ([.remoteGet cid.objectId], { d with id := [] }, .ok ())
    | .errOther => ([.remoteGet cid.objectId], d, .error .remoteError)
    | .ok app =>
      match findCredential cid.keyId (app.passwordCredentials.getD []) with
      | none => ([.remoteGet cid.objectId], { d with id := [] }, .ok ())
      | some cred =>
        let d := tfSetP d "application_object_id".toList (.str cid.objectId)
        let d := tfSetP d "display_name".toList (.optStr cred.displayName)
        let d := tfSetP d "key_id".toList (.str cid.keyId)
        let d := tfSetP d "start_date".toList
          (.str (cred.startDateTime.getD []))
        let d := tfSetP d "end_date".toList (.str (cred.endDateTime.getD []))
        ([.remoteGet cid.objectId], d, .ok ())

/-- The environment of applicationPasswordResourceCreate: the credential
generation outcome (helpers.PasswordCredentialForResource is outside src/, so
only its result is carried), the parent Get response, the AddPassword
response and the trailing read environment. -/
structure AppPwCreateEnv where
  credGen : Except Unit (Option Unit)
  get : GetRes (Option MsApplication)
  addPassword : Except Unit (Option PasswordCredential)
  read : AppPwReadEnv

/-- The part of applicationPasswordResourceCreate that runs between
tf.LockByName and the deferred tf.UnlockByName: fetching the parent, adding
the password, validating the returned credential, persisting the composite
identifier and the secret, and the trailing read. -/
def applicationPasswordCreateLocked (d : AppPasswordData)
    (env : AppPwCreateEnv) : List Ev × AppPasswordData × Except ErrKind Unit :=
  let objectId := d.applicationObjectId
  match env.get with
  | .notFound => ([.remoteGet objectId], d, .error .notFoundError)
  | .errOther => ([.remoteGet objectId], d, .error .remoteError)
  | .ok none => ([.remoteGet objectId], d, .error .badApiResponse)
  | .ok (some app) =>
    match app.id with
    | none => ([.remoteGet objectId], d, .error .badApiResponse)
    | some appId =>
      match env.addPassword with
      | .error _ =>
        ([.remoteGet objectId, .remoteAddPassword appId], d,
          .error .remoteError)
      | .ok none =>
        ([.remoteGet objectId, .remoteAddPassword appId], d,
          .error .badApiResponse)
      | .ok (some newCredential) =>
        match newCredential.keyId with
        | none =>
          ([.remoteGet objectId, .remoteAddPassword appId], d,
            .error .badApiResponse)
        | some keyId =>
          if newCredential.secretText = none ∨
              newCredential.secretText = some [] then
            ([.remoteGet objectId, .remoteAddPassword appId], d,
              .error .badApiResponse)
          else
            let cid :=
              (NewCredentialID appId "password".toList keyId).render
            let d1 := tfSetP { d with id := cid } "value".toList
              (.optStr newCredential.secretText)
            let r := applicationPasswordResourceRead d1 env.read
            ([.remoteGet objectId, .remoteAddPassword appId, .setId cid]
                ++ r.1,
              r.2.1, r.2.2)

/-- applicationPasswordResourceCreate: credential generation runs before the
lock; everything from the parent Get onwards runs between tf.LockByName and
the deferred tf.UnlockByName, keyed by the parent object id. -/
def applicationPasswordResourceCreate (d : AppPasswordData)
    (env : AppPwCreateEnv) : List Ev × AppPasswordData × Except ErrKind Unit :=
  let objectId := d.applicationObjectId
  match env.credGen with
  | .error _ => ([], d, .error .credentialGenError)
  | .ok none => ([], d, .error .badApiResponse)
  | .ok (some _) =>
    let body := applicationPasswordCreateLocked d env
    ([.lock applicationResourceName objectId] ++ body.1
        ++ [.unlock applicationResourceName objectId],
      body.2.1, body.2.2)

/-- The environment of applicationPasswordResourceDelete. -/
structure AppPwDeleteEnv where
  removePassword : Except Unit Unit

/-- applicationPasswordResourceDelete: parses the composite identifier before
the lock; RemovePassword runs between tf.LockByName and the deferred
tf.UnlockByName, keyed by the parent object id. -/
def applicationPasswordResourceDelete (d : AppPasswordData)
    (env : AppPwDeleteEnv) : List Ev × Except ErrKind Unit :=
  match PasswordID d.id with
  | none => ([], .error .parseError)
  | some cid =>
    let body : List Ev × Except ErrKind Unit :=
      match env.removePassword with
      | .error _ =>
        ([.remoteRemovePassword cid.objectId cid.keyId], .error .remoteError)
      | .ok _ =>
        ([.remoteRemovePassword cid.objectId cid.keyId], .ok ())
    ([.lock applicationResourceName cid.objectId] ++ body.1
        ++ [.unlock applicationResourceName cid.objectId],
      body.2)

/- ## Lock discipline checkers -/

/-- The lock key that protects a mutating remote call on a sub-collection of
a parent object, when the event is such a call. -/
def mutKey : Ev → Option (Str × Str)
  | .remoteAddPassword objectId => some (applicationResourceName, objectId)
  | .remoteRemovePassword objectId _ => some (applicationResourceName, objectId)
  | .remoteSetOwners objectId => some (applicationResourceName, objectId)
  | _ => none

/-- Checks a trace for lock discipline, given the multiset of currently held
lock keys: every mutating sub-collection call happens while its key is held,
every release matches a held key, and no key is left held at the end of the
trace. -/
def locksOk (held : List (Str × Str)) : List Ev → Bool
  | [] => held.isEmpty
  | e :: rest =>
    match e with
    | .lock n k => locksOk ((n, k) :: held) rest
    | .unlock n k => held.contains (n, k) && locksOk (held.erase (n, k)) rest
    | e =>
      (match mutKey e with
        | some key => held.contains key
        | none => true) && locksOk held rest

/-- `precedes a b tr`: some occurrence of `a` in the trace is followed,
strictly later, by an occurrence of `b`. -/
def precedes (a b : Ev) : List Ev → Bool
  | [] => false
  | e :: rest => if e = a then rest.contains b else precedes a b rest

/- ## Concrete fixtures used by witnesses and counterexamples -/

/-- A concrete application resource data value. -/
def exAppData : AppData :=
  { id := "00000000-1111-2222-3333-444444444444".toList
    displayName := "acctest-app".toList
    preventDuplicateNames := false
    api := "api".toList
    appRole := "roles".toList
    fallbackPublicClientEnabled := false
    groupMembershipClaims := "claims".toList
    identifierUris := []
    optionalClaims := "optional".toList
    requiredResourceAccess := "rra".toList
    signInAudience := "AzureADMyOrg".toList
    web := "web".toList
    owners := []
    hasChange := fun _ => false
    attrs := [] }

/-- A concrete user resource data value with no attribute marked as changed. -/
def exUserData : UserData :=
  { id := "00000000-aaaa-bbbb-cccc-dddddddddddd".toList
    accountEnabled := true
    forcePasswordChange := false
    city := "Berlin".toList
    companyName := "Contoso".toList
    country := "DE".toList
    department := "Eng".toList
    displayName := "Alice".toList
    givenName := "Alice".toList
    jobTitle := "Dev".toList
    mailNickname := "alice".toList
    mobilePhone := "1".toList
    officeLocation := "B1".toList
    onpremisesImmutableId := "imm".toList
    password := "pw".toList
    postalCode := "10115".toList
    stateProv := "BE".toList
    streetAddress := "Street 1".toList
    surname := "A".toList
    usageLocation := "DE".toList
    hasChange := fun _ => false
    attrs := [] }

/-- A concrete access package resource request resource data value. -/
def exAccessData : AccessData :=
  { id := "00000000-9999-8888-7777-666666666666".toList, attrs := [] }

/-- A concrete remote application record with a nil object id. -/
def exMsAppNilId : MsApplication :=
  { id := none
    appId := none
    api := none
    appRoles := none
    displayName := some "acctest-app".toList
    isFallbackPublicClient := none
    groupMembershipClaims := none
    identifierUris := none
    optionalClaims := none
    requiredResourceAccess := none
    signInAudience := []
    web := none
    passwordCredentials := none }

/- ## Claims -/

/-- C1, counterexample: for the azuread_application and azuread_user
resources, Delete whose preliminary Get observes NotFound (HTTP 404) does not
succeed as a no-op; it returns an explicit not-found error, so the claimed
idempotent second Delete fails for these resource types. -/
theorem c1_counterexample :
    (applicationResourceDelete exAppData
        { get := .notFound, delete := .ok () }).2 = .error .notFoundError ∧
      (userResourceDelete exUserData
        { get := .notFound, delete := .ok () }).2 = .error .notFoundError :=
  ⟨rfl, rfl⟩

/-- C1, amended: only the access package resource request Delete treats a
NotFound preliminary Read as an already-deleted no-op and succeeds (and a
Delete whose preliminary Read finds the object also succeeds when the remote
delete succeeds, so calling it twice succeeds both times); the application
and user Deletes instead fail with an explicit not-found error when the
preliminary Read observes NotFound. -/
theorem c1_amended_delete_on_notFound :
    ∀ (dA : AppData) (dU : UserData) (dG : AccessData)
      (delA delU delG : Except Unit Unit)
      (req : MsAccessPackageResourceRequest),
      (applicationResourceDelete dA { get := .notFound, delete := delA }).2 =
          .error .notFoundError ∧
        (userResourceDelete dU { get := .notFound, delete := delU }).2 =
          .error .notFoundError ∧
        (accessPackageResourceRequestResourceDelete dG
          { get := .notFound, delete := delG }).2 = .ok () ∧
        (accessPackageResourceRequestResourceDelete dG
          { get := .ok req, delete := .ok () }).2 = .ok () := by
  intro dA dU dG delA delU delG req
  exact ⟨rfl, rfl, rfl, rfl⟩

/-- C3: for the application, user and access package resource request
resources, Read on a NotFound (404) Get response succeeds and clears the
stored identifier (the resource becomes Absent), and Read on any other Get
failure returns an error and leaves the stored identifier unchanged. -/
theorem c3_read_notFound_clears_state :
    ∀ (dA : AppData) (lo : GetRes (List Str)) (dU : UserData)
      (dG : AccessData),
      applicationResourceRead dA { get := .notFound, listOwners := lo } =
          ([.remoteGet dA.id], { dA with id := [] }, .ok ()) ∧
        applicationResourceRead dA { get := .errOther, listOwners := lo } =
          ([.remoteGet dA.id], dA, .error .remoteError) ∧
        userResourceRead dU { get := .notFound } =
          ([.remoteGet dU.id], { dU with id := [] }, .ok ()) ∧
        userResourceRead dU { get := .errOther } =
          ([.remoteGet dU.id], dU, .error .remoteError) ∧
        accessPackageResourceRequestResourceRead dG .notFound =
          ([.remoteGet dG.id], { dG with id := [] }, .ok ()) ∧
        accessPackageResourceRequestResourceRead dG .errOther =
          ([.remoteGet dG.id], dG, .error .remoteError) := by
  intro dA lo dU dG
  exact ⟨rfl, rfl, rfl, rfl, rfl, rfl⟩

/-- C4, counterexample: in userResourceUpdate the city attribute is not
marked as changed, yet the outbound payload carries it, so the claim that
every field not marked as changed is omitted from the payload is false. -/
theorem c4_counterexample :
    exUserData.hasChange "city".toList = false ∧
      (userUpdatePayload exUserData).city = some "Berlin".toList :=
  ⟨rfl, rfl⟩

/-- C4, amended: the Update payload is built from the full current
configuration rather than from the changed-field delta.  In the user
resource the payload does not depend on the change marks except in exactly
two fields: the password profile and the on-premises immutable id, each
included precisely when its attribute is marked as changed.  In the
application resource the payload never consults the change marks at all. -/
theorem c4_amended_update_payload :
    ∀ (d : UserData) (f : Str → Bool) (exp : AppExpanders) (a : AppData)
      (g : Str → Bool),
      ((userUpdatePayload d).id = some d.id ∧
        (userUpdatePayload d).accountEnabled = some d.accountEnabled ∧
        (userUpdatePayload d).city = some d.city ∧
        (userUpdatePayload d).companyName = some d.companyName ∧
        (userUpdatePayload d).country = some d.country ∧
        (userUpdatePayload d).department = some d.department ∧
        (userUpdatePayload d).displayName = some d.displayName ∧
        (userUpdatePayload d).givenName = some d.givenName ∧
        (userUpdatePayload d).jobTitle = some d.jobTitle ∧
        (userUpdatePayload d).mailNickname = some d.mailNickname ∧
        (userUpdatePayload d).mobilePhone = some d.mobilePhone ∧
        (userUpdatePayload d).officeLocation = some d.officeLocation ∧
        (userUpdatePayload d).postalCode = some d.postalCode ∧
        (userUpdatePayload d).stateProv = some d.stateProv ∧
        (userUpdatePayload d).streetAddress = some d.streetAddress ∧
        (userUpdatePayload d).surname = some d.surname ∧
        (userUpdatePayload d).usageLocation = some d.usageLocation) ∧
      (userUpdatePayload d).passwordProfile =
        (if d.hasChange "password".toList then
          some { forceChangePasswordNextSignIn := d.forcePasswordChange
                 password := d.password }
        else none) ∧
      (userUpdatePayload d).onPremisesImmutableId =
        (if d.hasChange "onpremises_immutable_id".toList then
          some d.onpremisesImmutableId
        else none) ∧
      userUpdatePayload { d with hasChange := f } =
        { userUpdatePayload d with
            passwordProfile := (userUpdatePayload { d with hasChange := f }).passwordProfile
            onPremisesImmutableId :=
              (userUpdatePayload { d with hasChange := f }).onPremisesImmutableId } ∧
      applicationUpdatePayload exp { a with hasChange := g } =
        applicationUpdatePayload exp a := by
  intro d f exp a g
  refine ⟨⟨rfl, rfl, rfl, rfl, rfl, rfl, rfl, rfl, rfl, rfl, rfl, rfl, rfl,
    rfl, rfl, rfl, rfl⟩, rfl, rfl, ?_, rfl⟩
  rfl

/-- C8: the Identifier Codec is a bijection on valid inputs: decoding the
encoding of any valid (parentId, kind, keyId) triple yields the triple back;
decoding only succeeds on the encoding of a valid triple (so
encode(decode(x)) = x); and decode fails with a parse error on every
malformed input, i.e. on every string that is not the encoding of a valid
triple. -/
theorem c8_codec_bijection :
    (∀ parentId kind keyId,
        ValidCredentialId (NewCredentialID parentId kind keyId) →
          credentialID (NewCredentialID parentId kind keyId).render =
            some (NewCredentialID parentId kind keyId)) ∧
      (∀ s t, credentialID s = some t → ValidCredentialId t ∧ t.render = s) ∧
      (∀ s, (∀ t, ValidCredentialId t → t.render ≠ s) →
        credentialID s = none) :=
  ⟨fun _ _ _ h => credentialID_render _ h, credentialID_sound,
    credentialID_malformed⟩

/-- C8, witness: the codec round-trips on a concrete valid triple. -/
theorem c8_codec_bijection_witness :
    credentialID (NewCredentialID "0b".toList "password".toList
        "4f".toList).render =
      some (NewCredentialID "0b".toList "password".toList "4f".toList) :=
  c8_codec_bijection.1 "0b".toList "password".toList "4f".toList (by decide)

/- ### State upgrader lemmas -/

theorem OldPasswordID_sound (s : Str) (t : CredentialId)
    (h : OldPasswordID s = some t) :
    t.objectId ≠ [] ∧ t.keyId ≠ [] ∧ t.keyType = "password".toList ∧
      s.splitOn credentialIdSep = [t.objectId, t.keyId] := by
  unfold OldPasswordID at h
  rcases hs : s.splitOn credentialIdSep with _ | ⟨a, _ | ⟨b, _ | ⟨c, l⟩⟩⟩ <;>
      rw [hs] at h
  · simp at h
  · simp at h
  · dsimp only at h
    split at h
    · rename_i hc
      injection h with h
      cases h
      exact ⟨hc.1, hc.2, rfl, rfl⟩
    · cases h
  · simp at h

theorem OldPasswordID_render_none (t : CredentialId)
    (h1 : credentialIdSep ∉ t.objectId) (h2 : credentialIdSep ∉ t.keyType)
    (h3 : credentialIdSep ∉ t.keyId) : OldPasswordID t.render = none := by
  unfold OldPasswordID
  rw [splitOn_render t h1 h2 h3]

theorem credentialID_three_fields_old_none (s : Str) (t : CredentialId)
    (h : credentialID s = some t) : OldPasswordID s = none := by
  unfold credentialID at h
  unfold OldPasswordID
  rcases hs : s.splitOn credentialIdSep with _ | ⟨a, _ | ⟨b, _ | ⟨c, _ | l⟩⟩⟩ <;>
      rw [hs] at h <;> first
    | simp at h
    | rfl

/-- C9: the State Upgrader is idempotent under double application: applied to
an already-upgraded (current-format) identifier it fails cleanly and leaves
the stored identifier unchanged, and for every stored identifier running the
upgrade twice yields the same final identifier value as running it once. -/
theorem c9_state_upgrade_idempotent :
    (∀ s t, credentialID s = some t →
        resourceApplicationPasswordInstanceStateUpgradeV0 s =
          (s, some .parseError)) ∧
      ∀ s,
        (resourceApplicationPasswordInstanceStateUpgradeV0
            (resourceApplicationPasswordInstanceStateUpgradeV0 s).1).1 =
          (resourceApplicationPasswordInstanceStateUpgradeV0 s).1 := by
  constructor
  · intro s t h
    unfold resourceApplicationPasswordInstanceStateUpgradeV0
    rw [credentialID_three_fields_old_none s t h]
  · intro s
    rcases h : OldPasswordID s with _ | t
    · simp [resourceApplicationPasswordInstanceStateUpgradeV0, h]
    · obtain ⟨h1, h2, h3, hs⟩ := OldPasswordID_sound s t h
      have hmem := mem_splitOn_not_mem credentialIdSep s
      have ho : credentialIdSep ∉ t.objectId := hmem t.objectId (by simp [hs])
      have hk : credentialIdSep ∉ t.keyId := hmem t.keyId (by simp [hs])
      have ht : credentialIdSep ∉ t.keyType := by rw [h3]; decide
      have hnone := OldPasswordID_render_none t ho ht hk
      simp [resourceApplicationPasswordInstanceStateUpgradeV0, h, hnone]

/-- C9, witness: a concrete already-upgraded identifier is left unchanged
with a clear failure, and a concrete legacy identifier reaches a fixed point
after one upgrade. -/
theorem c9_state_upgrade_idempotent_witness :
    resourceApplicationPasswordInstanceStateUpgradeV0
        "0b/password/4f".toList = ("0b/password/4f".toList, some .parseError) ∧
      (resourceApplicationPasswordInstanceStateUpgradeV0
          (resourceApplicationPasswordInstanceStateUpgradeV0
            "0b/4f".toList).1).1 =
        (resourceApplicationPasswordInstanceStateUpgradeV0 "0b/4f".toList).1 :=
  ⟨c9_state_upgrade_idempotent.1 "0b/password/4f".toList
      (NewCredentialID "0b".toList "password".toList "4f".toList) (by decide),
    c9_state_upgrade_idempotent.2 "0b/4f".toList⟩

/- ### Domains filter lemmas -/

theorem mem_filter_skip {α : Type} (C : α → Prop) (v w : α)
    (rest out : List α) (hout : v ∈ out ↔ v ∈ rest ∧ C v) (hw : ¬C w) :
    v ∈ out ↔ v ∈ w :: rest ∧ C v := by
  rw [hout]
  constructor
  · rintro ⟨hm, hc⟩
    exact ⟨List.mem_cons_of_mem _ hm, hc⟩
  · rintro ⟨hm, hc⟩
    rcases List.mem_cons.mp hm with rfl | hm
    · exact absurd hc hw
    · exact ⟨hm, hc⟩

theorem mem_filter_keep {α : Type} (C : α → Prop) (v w : α)
    (rest out : List α) (hout : v ∈ out ↔ v ∈ rest ∧ C v) (hw : C w) :
    v ∈ w :: out ↔ v ∈ w :: rest ∧ C v := by
  constructor
  · intro hm
    rcases List.mem_cons.mp hm with rfl | hm
    · exact ⟨List.mem_cons_self _ _, hw⟩
    · obtain ⟨a, b⟩ := hout.mp hm
      exact ⟨List.mem_cons_of_mem _ a, b⟩
  · rintro ⟨hm, hc⟩
    rcases List.mem_cons.mp hm with rfl | hm
    · exact List.mem_cons_self _ _
    · exact List.mem_cons_of_mem _ (hout.mpr ⟨hm, hc⟩)

/-- The claim-side characterization of one domain passing every filter: each
boolean filter excludes a domain only when the corresponding record field is
present (non-nil) and contradicts the filter (`= some false`), so a domain
whose field is nil passes that filter; the supports_services filter excludes
only when the service list is present and misses a requested service. -/
def domainIncluded (f : DomainsFilter) (u : MsDomain) : Prop :=
  u.id ≠ none ∧
    (f.adminManaged = true → u.isAdminManaged ≠ some false) ∧
    (f.onlyDefault = true → u.isDefault ≠ some false) ∧
    (f.onlyInitial = true → u.isInitial ≠ some false) ∧
    (f.onlyRoot = true → u.isRoot ≠ some false) ∧
    (f.includeUnverified = false → u.isVerified ≠ some false) ∧
    ¬(f.supportsServices.length > 0 ∧
      ∃ ss, u.supportedServices = some ss ∧
        supportedCount f.supportsServices ss < f.supportsServices.length)

/-- C10: a domain appears in the result of the domains data source filter
loop exactly when it appears in the remote list, has a non-nil ID (domains
with a nil ID are omitted), and no filter excludes it in the sense of
`domainIncluded`. -/
theorem c10_domains_filter_nil_passes :
    ∀ (f : DomainsFilter) (l : List MsDomain) (v : MsDomain),
      v ∈ domainsDataSourceReadFilter f l ↔ v ∈ l ∧ domainIncluded f v := by
  intro f l v
  induction l with
  | nil => simp [domainsDataSourceReadFilter]
  | cons w rest ih =>
    simp only [domainsDataSourceReadFilter]
    split_ifs with h1 h2 h3 h4 h5 h6
    · refine mem_filter_skip (domainIncluded f) v w rest _ ih ?_
      intro hCw
      obtain ⟨-, hc, -⟩ := hCw
      exact hc h1.1 h1.2
    · refine mem_filter_skip (domainIncluded f) v w rest _ ih ?_
      intro hCw
      obtain ⟨-, -, hc, -⟩ := hCw
      exact hc h2.1 h2.2
    · refine mem_filter_skip (domainIncluded f) v w rest _ ih ?_
      intro hCw
      obtain ⟨-, -, -, hc, -⟩ := hCw
      exact hc h3.1 h3.2
    · refine mem_filter_skip (domainIncluded f) v w rest _ ih ?_
      intro hCw
      obtain ⟨-, -, -, -, hc, -⟩ := hCw
      exact hc h4.1 h4.2
    · refine mem_filter_skip (domainIncluded f) v w rest _ ih ?_
      intro hCw
      obtain ⟨-, -, -, -, -, hc, -⟩ := hCw
      exact hc (by simpa using h5.1) h5.2
    · refine mem_filter_skip (domainIncluded f) v w rest _ ih ?_
      intro hCw
      obtain ⟨-, -, -, -, -, -, hc⟩ := hCw
      exact hc h6
    · rcases hwid : w.id with _ | x
      · simp only [hwid]
        refine mem_filter_skip (domainIncluded f) v w rest _ ih ?_
        intro hCw
        obtain ⟨hid, -⟩ := hCw
        exact hid hwid
      · simp only [hwid]
        refine mem_filter_keep (domainIncluded f) v w rest _ ih ?_
        refine ⟨by simp [hwid], ?_, ?_, ?_, ?_, ?_, h6⟩
        · intro ha hb
          exact h1 ⟨ha, hb⟩
        · intro ha hb
          exact h2 ⟨ha, hb⟩
        · intro ha hb
          exact h3 ⟨ha, hb⟩
        · intro ha hb
          exact h4 ⟨ha, hb⟩
        · intro ha hb
          exact h5 ⟨by simp [ha], hb⟩

/- ### Lock discipline lemmas -/

/-- Events that neither take or release a lock nor mutate a sub-collection. -/
def neutralEv : Ev → Bool
  | .lock _ _ => false
  | .unlock _ _ => false
  | .remoteAddPassword _ => false
  | .remoteRemovePassword _ _ => false
  | .remoteSetOwners _ => false
  | _ => true

theorem locksOk_append_neutral (l : List Ev)
    (hl : ∀ e ∈ l, neutralEv e = true) :
    ∀ (held : List (Str × Str)) (rest : List Ev),
      locksOk held (l ++ rest) = locksOk held rest := by
  induction l with
  | nil =>
    intro held rest
    rfl
  | cons e es ih =>
    intro held rest
    have he := hl e (List.mem_cons_self _ _)
    have htail : ∀ x ∈ es, neutralEv x = true := fun x hx =>
      hl x (List.mem_cons_of_mem _ hx)
    cases e with
    | lock n k => simp [neutralEv] at he
    | unlock n k => simp [neutralEv] at he
    | remoteAddPassword o => simp [neutralEv] at he
    | remoteRemovePassword o k => simp [neutralEv] at he
    | remoteSetOwners o => simp [neutralEv] at he
    | remoteGet i =>
      simpa [List.cons_append, locksOk, mutKey] using ih htail held rest
    | remoteList n =>
      simpa [List.cons_append, locksOk, mutKey] using ih htail held rest
    | remoteCreate =>
      simpa [List.cons_append, locksOk, mutKey] using ih htail held rest
    | remoteUpdate k =>
      simpa [List.cons_append, locksOk, mutKey] using ih htail held rest
    | remoteDelete i =>
      simpa [List.cons_append, locksOk, mutKey] using ih htail held rest
    | remoteListOwners o =>
      simpa [List.cons_append, locksOk, mutKey] using ih htail held rest
    | setId i =>
      simpa [List.cons_append, locksOk, mutKey] using ih htail held rest

theorem locksOk_neutral (l : List Ev) (hl : ∀ e ∈ l, neutralEv e = true)
    (held : List (Str × Str)) : locksOk held l = held.isEmpty := by
  have h := locksOk_append_neutral l hl held []
  simpa [locksOk] using h

theorem pwRead_trace_neutral (d : AppPasswordData) (env : AppPwReadEnv) :
    ∀ e ∈ (applicationPasswordResourceRead d env).1, neutralEv e = true := by
  intro e he
  rcases h1 : PasswordID d.id with _ | cid
  · simp [applicationPasswordResourceRead, h1] at he
  · rcases hg : env.get with app | _ | _
    · rcases hf : findCredential cid.keyId (app.passwordCredentials.getD [])
          with _ | cred <;>
        (simp [applicationPasswordResourceRead, h1, hg, hf] at he;
          simp [he, neutralEv])
    · simp [applicationPasswordResourceRead, h1, hg] at he
      simp [he, neutralEv]
    · simp [applicationPasswordResourceRead, h1, hg] at he
      simp [he, neutralEv]

theorem appRead_trace_neutral (d : AppData) (env : AppReadEnv) :
    ∀ e ∈ (applicationResourceRead d env).1, neutralEv e = true := by
  intro e he
  unfold applicationResourceRead at he
  rcases hg : env.get with app | _ | _ <;> rw [hg] at he
  · rcases hl : env.listOwners with owners | _ | _ <;> rw [hl] at he <;>
      simp at he <;> rcases he with he | he <;> simp [he, neutralEv]
  · simp at he
    simp [he, neutralEv]
  · simp at he
    simp [he, neutralEv]

theorem pwCreate_locksOk (d : AppPasswordData) (env : AppPwCreateEnv)
    (hget : ∀ app, env.get = .ok (some app) →
      app.id = some d.applicationObjectId) :
    locksOk [] (applicationPasswordResourceCreate d env).1 = true := by
  cases hcg : env.credGen with
  | error e => simp [applicationPasswordResourceCreate, hcg, locksOk]
  | ok o =>
    cases o with
    | none => simp [applicationPasswordResourceCreate, hcg, locksOk]
    | some u =>
      have hmain :
          locksOk [(applicationResourceName, d.applicationObjectId)]
            ((applicationPasswordCreateLocked d env).1 ++
              [.unlock applicationResourceName d.applicationObjectId]) =
            true := by
        cases hg : env.get with
        | notFound =>
          simp [applicationPasswordCreateLocked, hg, locksOk, mutKey]
        | errOther =>
          simp [applicationPasswordCreateLocked, hg, locksOk, mutKey]
        | ok oapp =>
          cases oapp with
          | none =>
            simp [applicationPasswordCreateLocked, hg, locksOk, mutKey]
          | some app =>
            have hid := hget app hg
            cases hap : env.addPassword with
            | error e =>
              simp [applicationPasswordCreateLocked, hg, hap, hid, locksOk,
                mutKey]
            | ok ocred =>
              cases ocred with
              | none =>
                simp [applicationPasswordCreateLocked, hg, hap, hid, locksOk,
                  mutKey]
              | some cred =>
                cases hk : cred.keyId with
                | none =>
                  simp [applicationPasswordCreateLocked, hg, hap, hid, hk,
                    locksOk, mutKey]
                | some keyId =>
                  by_cases hsec : cred.secretText = none ∨
                      cred.secretText = some []
                  · simp [applicationPasswordCreateLocked, hg, hap, hid, hk,
                      hsec, locksOk, mutKey]
                  · simp only [applicationPasswordCreateLocked, hg, hap, hid,
                      hk, if_neg hsec, List.cons_append, List.append_assoc,
                      List.nil_append]
                    simp only [locksOk, mutKey, List.contains_cons,
                      List.nil_append]
                    rw [locksOk_append_neutral _
                      (pwRead_trace_neutral _ _)]
                    simp [locksOk]
      cases hg2 : env.get <;>
        simp only [applicationPasswordResourceCreate, hcg, List.cons_append,
          locksOk] <;>
        exact hmain
  
theorem pwDelete_locksOk (d : AppPasswordData) (env : AppPwDeleteEnv) :
    locksOk [] (applicationPasswordResourceDelete d env).1 = true := by
  rcases hp : PasswordID d.id with _ | cid
  · simp [applicationPasswordResourceDelete, hp, locksOk]
  · cases hr : env.removePassword with
    | error e =>
      simp [applicationPasswordResourceDelete, hp, hr, locksOk, mutKey]
    | ok u =>
      simp [applicationPasswordResourceDelete, hp, hr, locksOk, mutKey]

theorem appCreate_locksOk (d : AppData) (env : AppCreateEnv) :
    locksOk [] (applicationResourceCreate d env).1 = true := by
  have hguardEvs : ∀ rest, locksOk []
      ((if d.preventDuplicateNames then
          [Ev.remoteList d.displayName] else []) ++ rest) =
        locksOk [] rest := by
    intro rest
    by_cases hp : d.preventDuplicateNames <;>
      simp [hp, locksOk, mutKey]
  cases hgr : applicationCreateDupGuard d env.findByName with
  | error e =>
    simp only [applicationResourceCreate, hgr]
    have := hguardEvs []
    simpa [locksOk] using this
  | ok u =>
    cases hc : env.create with
    | error e =>
      simp only [applicationResourceCreate, hgr, hc]
      rw [hguardEvs]
      simp [locksOk, mutKey]
    | ok app =>
      cases hai : app.id with
      | none =>
        simp only [applicationResourceCreate, hgr, hc, hai]
        rw [hguardEvs]
        simp [locksOk, mutKey]
      | some aid =>
        by_cases haid : aid = []
        · simp only [applicationResourceCreate, hgr, hc, hai, if_pos haid]
          rw [hguardEvs]
          simp [locksOk, mutKey]
        · cases hso : env.setOwners with
          | error e =>
            simp only [applicationResourceCreate, hgr, hc, hai,
              if_neg haid, applicationSetOwners, hso, List.cons_append,
              List.append_assoc]
            rw [hguardEvs]
            simp [locksOk, mutKey]
          | ok v =>
            simp only [applicationResourceCreate, hgr, hc, hai,
              if_neg haid, applicationSetOwners, hso, List.cons_append,
              List.append_assoc]
            rw [hguardEvs]
            simp only [locksOk, mutKey, List.contains_cons, List.nil_append,
              List.append_assoc]
            rw [locksOk_neutral _ (appRead_trace_neutral _ _)]
            simp

/-- C2: in every operation that mutates a sub-collection of a parent object
(adding a password credential, removing a password credential, and setting
owners inside create), the trace satisfies the lock discipline: the mutating
remote call happens while the Name Lock keyed by the parent identifier is
held, and every acquired lock is released on every exit path (no lock is
left held at the end of any trace).  The hypothesis states that the parent
Get returns the requested object. -/
theorem c2_name_lock_discipline (dP : AppPasswordData) (envP : AppPwCreateEnv)
    (hget : ∀ app, envP.get = .ok (some app) →
      app.id = some dP.applicationObjectId)
    (dD : AppPasswordData) (envD : AppPwDeleteEnv)
    (dC : AppData) (envC : AppCreateEnv) :
    locksOk [] (applicationPasswordResourceCreate dP envP).1 = true ∧
      locksOk [] (applicationPasswordResourceDelete dD envD).1 = true ∧
      locksOk [] (applicationResourceCreate dC envC).1 = true :=
  ⟨pwCreate_locksOk dP envP hget, pwDelete_locksOk dD envD,
    appCreate_locksOk dC envC⟩

theorem appRead_events (d : AppData) (env : AppReadEnv) (e : Ev)
    (he : e ∈ (applicationResourceRead d env).1) :
    (∃ x, e = .remoteGet x) ∨ ∃ o, e = .remoteListOwners o := by
  rcases hg : env.get with app | _ | _
  · rcases hl : env.listOwners with owners | _ | _ <;>
      (simp [applicationResourceRead, hg, hl] at he;
        rcases he with he | he <;> simp [he])
  · simp [applicationResourceRead, hg] at he
    simp [he]
  · simp [applicationResourceRead, hg] at he
    simp [he]

/-- C5: during applicationResourceCreate, once the service returns a created
object with a usable (non-empty) id, the identifier is persisted into local
state (setId) strictly before the owners follow-up write is attempted; if
that follow-up write fails, the error is surfaced, the created remote object
is not rolled back (no remote delete appears in the trace), and the persisted
identifier is not cleared. -/
theorem c5_create_identity_persisted_first (d : AppData) (env : AppCreateEnv)
    (app : MsApplication) (aid : Str) (hc : env.create = .ok app)
    (hai : app.id = some aid) (haid : aid ≠ [])
    (hguard : applicationCreateDupGuard d env.findByName = .ok ()) :
    precedes (.setId aid) (.remoteSetOwners aid)
        (applicationResourceCreate d env).1 = true ∧
      (∀ x, Ev.remoteDelete x ∉ (applicationResourceCreate d env).1) ∧
      (env.setOwners = .error () →
        (applicationResourceCreate d env).2.2 = .error .remoteError ∧
          (applicationResourceCreate d env).2.1.id = aid) := by
  cases hso : env.setOwners with
  | error e =>
    by_cases hp : d.preventDuplicateNames <;>
      simp [applicationResourceCreate, hguard, hc, hai, haid,
        applicationSetOwners, hso, hp, precedes]
  | ok v =>
    by_cases hp : d.preventDuplicateNames <;>
      (refine ⟨?_, ?_, ?_⟩
        <;> simp [applicationResourceCreate, hguard, hc, hai, haid,
          applicationSetOwners, hso, hp, precedes])
    · intro x hx
      rcases appRead_events _ _ _ hx with ⟨y, hy⟩ | ⟨o, ho⟩ <;> simp_all
    · intro x hx
      rcases appRead_events _ _ _ hx with ⟨y, hy⟩ | ⟨o, ho⟩ <;> simp_all

theorem dupCheck_all_own (appId dn : Str) :
    ∀ ms : List MsApplication, (∀ m ∈ ms, m.id = some appId) →
      applicationUpdateDupCheck appId dn ms = .ok () := by
  intro ms
  induction ms with
  | nil => intro _; rfl
  | cons m rest ih =>
    intro h
    have hm := h m (List.mem_cons_self _ _)
    have hstep : applicationUpdateDupCheck appId dn (m :: rest) =
        applicationUpdateDupCheck appId dn rest := by
      simp [applicationUpdateDupCheck, hm]
    rw [hstep]
    exact ih fun x hx => h x (List.mem_cons_of_mem _ hx)

theorem dupCheck_differing (appId dn : Str) :
    ∀ ms : List MsApplication, (∀ m ∈ ms, m.id ≠ none) →
      (∃ m ∈ ms, m.id ≠ some appId) →
      ∃ c, applicationUpdateDupCheck appId dn ms =
          .error (.importAsDuplicate applicationResourceName c dn) ∧
        some c ∈ ms.map (·.id) ∧ c ≠ appId := by
  intro ms
  induction ms with
  | nil =>
    rintro _ ⟨m, hm, -⟩
    cases hm
  | cons m rest ih =>
    intro hnn hex
    rcases hid : m.id with _ | eid
    · exact absurd hid (hnn m (List.mem_cons_self _ _))
    · by_cases he : eid = appId
      · subst he
        have hex2 : ∃ x ∈ rest, x.id ≠ some eid := by
          rcases hex with ⟨x, hx, hneq⟩
          rcases List.mem_cons.mp hx with rfl | hx
          · exact absurd hid hneq
          · exact ⟨x, hx, hneq⟩
        obtain ⟨c, hc1, hc2, hc3⟩ :=
          ih (fun x hx => hnn x (List.mem_cons_of_mem _ hx)) hex2
        refine ⟨c, ?_, ?_, hc3⟩
        · simpa [applicationUpdateDupCheck, hid] using hc1
        · simp [hc2]
      · refine ⟨eid, ?_, ?_, he⟩
        · simp [applicationUpdateDupCheck, hid, he]
        · simp [hid]

theorem disableRoles_error_kind (b : Bool) (r : Except Unit Unit)
    (e : ErrKind) (h : (applicationDisableAppRoles b r).2 = .error e) :
    e = .remoteError := by
  cases b <;> cases r <;> simp [applicationDisableAppRoles] at h <;> simp [h]

theorem disableScopes_error_kind (b : Bool) (r : Except Unit Unit)
    (e : ErrKind)
    (h : (applicationDisableOauth2PermissionScopes b r).2 = .error e) :
    e = .remoteError := by
  cases b <;> cases r <;>
    simp [applicationDisableOauth2PermissionScopes] at h <;> simp [h]

theorem setOwners_error_kind (a : Str) (r : Except Unit Unit) (e : ErrKind)
    (h : (applicationSetOwners a r).2 = .error e) : e = .remoteError := by
  cases r <;> simp [applicationSetOwners] at h <;> simp [h]

theorem appRead_result (d : AppData) (env : AppReadEnv) :
    (applicationResourceRead d env).2.2 = .ok () ∨
      (applicationResourceRead d env).2.2 = .error .remoteError := by
  rcases hg : env.get with app | _ | _ <;>
    rcases hl : env.listOwners with owners | _ | _ <;>
    simp [applicationResourceRead, hg, hl]

theorem updateMain_no_dup (d : AppData) (env : AppUpdateEnv) (rn c dn : Str) :
    (applicationUpdateMain d env).2.2 ≠
      .error (.importAsDuplicate rn c dn) := by
  unfold applicationUpdateMain
  cases hdr : (applicationDisableAppRoles env.rolesNeedDisabling
      env.disableRoles).2 with
  | error e =>
    have := disableRoles_error_kind _ _ _ hdr
    subst this
    simp [hdr]
  | ok v =>
    cases hds : (applicationDisableOauth2PermissionScopes
        env.scopesNeedDisabling env.disableScopes).2 with
    | error e =>
      have := disableScopes_error_kind _ _ _ hds
      subst this
      simp [hdr, hds]
    | ok w =>
      cases hu : env.update with
      | error eu => simp [hdr, hds, hu]
      | ok uu =>
        cases hso : (applicationSetOwners d.id env.setOwners).2 with
        | error e =>
          have := setOwners_error_kind _ _ _ hso
          subst this
          simp [hdr, hds, hu, hso]
        | ok ww =>
          rcases appRead_result d env.read with h | h <;>
            simp [hdr, hds, hu, hso, h]

theorem disableRoles_trace (b : Bool) (r : Except Unit Unit) :
    (applicationDisableAppRoles b r).1 =
      if b then [Ev.remoteUpdate .disableAppRoles] else [] := by
  cases b <;> rfl

theorem disableScopes_trace (b : Bool) (r : Except Unit Unit) :
    (applicationDisableOauth2PermissionScopes b r).1 =
      if b then [Ev.remoteUpdate .disableScopes] else [] := by
  cases b <;> rfl

theorem setOwners_trace (a : Str) (r : Except Unit Unit) :
    (applicationSetOwners a r).1 =
      [.lock applicationResourceName a, .remoteSetOwners a,
        .unlock applicationResourceName a] := rfl

theorem updateMain_no_remoteList (d : AppData) (env : AppUpdateEnv)
    (x : Str) : Ev.remoteList x ∉ (applicationUpdateMain d env).1 := by
  have hnl : ∀ (b : Bool) (k : UpdateKind),
      Ev.remoteList x ∉ (if b then [Ev.remoteUpdate k] else []) := by
    intro b k
    cases b <;> simp
  intro hmem
  unfold applicationUpdateMain at hmem
  cases hdr : (applicationDisableAppRoles env.rolesNeedDisabling
      env.disableRoles).2 with
  | error e =>
    simp [hdr, disableRoles_trace] at hmem
  | ok v =>
    cases hds : (applicationDisableOauth2PermissionScopes
        env.scopesNeedDisabling env.disableScopes).2 with
    | error e =>
      simp [hdr, hds, disableRoles_trace, disableScopes_trace] at hmem
    | ok w =>
      cases hu : env.update with
      | error eu =>
        simp [hdr, hds, hu, disableRoles_trace, disableScopes_trace] at hmem
      | ok uu =>
        cases hso : (applicationSetOwners d.id env.setOwners).2 with
        | error e =>
          simp [hdr, hds, hu, hso, disableRoles_trace, disableScopes_trace,
            setOwners_trace] at hmem
        | ok ww =>
          simp [hdr, hds, hu, hso, disableRoles_trace, disableScopes_trace,
            setOwners_trace] at hmem
          rcases appRead_events _ _ _ hmem with ⟨y, hy⟩ | ⟨o, ho⟩ <;>
            simp_all

theorem create_guard_disabled (d : AppData) (env : AppCreateEnv)
    (hp : d.preventDuplicateNames = false) :
    (∀ x, Ev.remoteList x ∉ (applicationResourceCreate d env).1) ∧
      Ev.remoteCreate ∈ (applicationResourceCreate d env).1 := by
  have hguard : applicationCreateDupGuard d env.findByName = .ok () := by
    simp [applicationCreateDupGuard, hp]
  cases hc : env.create with
  | error e =>
    exact ⟨fun x => by simp [applicationResourceCreate, hguard, hp, hc],
      by simp [applicationResourceCreate, hguard, hp, hc]⟩
  | ok app =>
    cases hai : app.id with
    | none =>
      exact ⟨fun x => by
          simp [applicationResourceCreate, hguard, hp, hc, hai],
        by simp [applicationResourceCreate, hguard, hp, hc, hai]⟩
    | some aid =>
      by_cases haid : aid = []
      · exact ⟨fun x => by
            simp [applicationResourceCreate, hguard, hp, hc, hai, haid],
          by simp [applicationResourceCreate, hguard, hp, hc, hai, haid]⟩
      · cases hso : env.setOwners with
        | error e =>
          exact ⟨fun x => by
              simp [applicationResourceCreate, hguard, hp, hc, hai, haid,
                applicationSetOwners, hso],
            by simp [applicationResourceCreate, hguard, hp, hc, hai, haid,
              applicationSetOwners, hso]⟩
        | ok v =>
          constructor
          · intro x hx
            simp [applicationResourceCreate, hguard, hp, hc, hai, haid,
              applicationSetOwners, hso] at hx
            rcases appRead_events _ _ _ hx with ⟨y, hy⟩ | ⟨o, ho⟩ <;>
              simp_all
          · simp [applicationResourceCreate, hguard, hp, hc, hai, haid,
              applicationSetOwners, hso]

/-- C6, counterexample: with the duplicate-name guard enabled and the
by-display-name search returning one match whose object id is nil, Create
fails with a bad-API-response error, not with the distinguished
duplicate-resource error carrying a conflicting identity that the claim
promises for every non-empty search result. -/
theorem c6_counterexample :
    (applicationResourceCreate
        { exAppData with preventDuplicateNames := true }
        { findByName := .ok (some [exMsAppNilId]), create := .ok exMsAppNilId,
          setOwners := .ok (),
          read := { get := .notFound, listOwners := .notFound } }).2.2 =
      .error .badApiResponse := rfl

/-- C6, amended: with the guard enabled, Create fails with the distinguished
duplicate-resource error carrying the conflicting identity whenever the
first returned match has a non-nil identity (a nil identity yields a
bad-API-response error instead); Update fails that way exactly when some
returned match has an identity different from the application being updated,
provided every match carries a non-nil identity; and with the guard disabled
no by-display-name search is performed and the operation proceeds. -/
theorem c6_duplicate_name_guard :
    (∀ (d : AppData) (m : MsApplication) (eid : Str)
        (ms : List MsApplication) (c : Except Unit MsApplication)
        (so : Except Unit Unit) (re : AppReadEnv),
        (applicationResourceCreate { d with preventDuplicateNames := true }
            { findByName := .ok (some ({ m with id := some eid } :: ms)),
              create := c, setOwners := so, read := re }).2.2 =
          .error (.importAsDuplicate applicationResourceName eid
            d.displayName)) ∧
      (∀ (d : AppData) (env : AppCreateEnv),
        d.preventDuplicateNames = false →
          (∀ x, Ev.remoteList x ∉ (applicationResourceCreate d env).1) ∧
            Ev.remoteCreate ∈ (applicationResourceCreate d env).1) ∧
      (∀ (d : AppData) (env : AppUpdateEnv) (ms : List MsApplication),
        d.preventDuplicateNames = true →
          env.findByName = .ok (some ms) →
          (∀ m ∈ ms, m.id ≠ none) →
          ((∀ m ∈ ms, m.id = some d.id) →
            ∀ rn c dn, (applicationResourceUpdate d env).2.2 ≠
              .error (.importAsDuplicate rn c dn)) ∧
          ((∃ m ∈ ms, m.id ≠ some d.id) →
            ∃ c, (applicationResourceUpdate d env).2.2 =
                .error (.importAsDuplicate applicationResourceName c
                  d.displayName) ∧
              some c ∈ ms.map (·.id) ∧ c ≠ d.id)) ∧
      (∀ (d : AppData) (env : AppUpdateEnv),
        d.preventDuplicateNames = false →
          ∀ x, Ev.remoteList x ∉ (applicationResourceUpdate d env).1) := by
  refine ⟨?_, ?_, ?_, ?_⟩
  · intro d m eid ms c so re
    rfl
  · intro d env hp
    exact create_guard_disabled d env hp
  · intro d env ms hp hfq hnn
    constructor
    · intro hall rn c dn
      have hok : applicationUpdateDupCheck d.id d.displayName ms = .ok () :=
        dupCheck_all_own _ _ ms hall
      have hres : (applicationResourceUpdate d env).2.2 =
          (applicationUpdateMain d env).2.2 := by
        simp [applicationResourceUpdate, applicationUpdateDupGuard, hp, hfq,
          hok]
      rw [hres]
      exact updateMain_no_dup d env rn c dn
    · intro hex
      obtain ⟨c, hc1, hc2, hc3⟩ :=
        dupCheck_differing d.id d.displayName ms hnn hex
      refine ⟨c, ?_, hc2, hc3⟩
      simp [applicationResourceUpdate, applicationUpdateDupGuard, hp, hfq,
        hc1]
  · intro d env hp x
    have hres : (applicationResourceUpdate d env).1 =
        (applicationUpdateMain d env).1 := by
      simp [applicationResourceUpdate, applicationUpdateDupGuard, hp]
    rw [hres]
    exact updateMain_no_remoteList d env x

/-- A concrete remote application record carrying a non-nil object id that
differs from the id of exAppData. -/
def exMsAppOther : MsApplication :=
  { exMsAppNilId with id := some "ffffffff-0000-0000-0000-000000000000".toList }

/-- A concrete update environment whose search returns exMsAppOther. -/
def exAppUpdateEnv : AppUpdateEnv :=
  { findByName := .ok (some [exMsAppOther])
    rolesNeedDisabling := false
    disableRoles := .ok ()
    scopesNeedDisabling := false
    disableScopes := .ok ()
    update := .ok ()
    setOwners := .ok ()
    read := { get := .notFound, listOwners := .notFound } }

/-- C6, witness: on a concrete update with the guard enabled and one match
with a different non-nil identity, the theorem yields the distinguished
duplicate-resource error carrying that identity. -/
theorem c6_duplicate_name_guard_witness :
    ∃ c, (applicationResourceUpdate
          { exAppData with preventDuplicateNames := true }
          exAppUpdateEnv).2.2 =
        .error (.importAsDuplicate applicationResourceName c
          exAppData.displayName) ∧
      some c ∈ [exMsAppOther].map (·.id) ∧
      c ≠ exAppData.id :=
  (c6_duplicate_name_guard.2.2.1
      { exAppData with preventDuplicateNames := true }
      exAppUpdateEnv [exMsAppOther] rfl rfl (by decide)).2
    (by decide)

theorem updateMain_roles_fail (d : AppData) (env : AppUpdateEnv)
    (h1 : env.rolesNeedDisabling = true) (h2 : env.disableRoles = .error ()) :
    Ev.remoteUpdate .full ∉ (applicationUpdateMain d env).1 := by
  intro hmem
  simp [applicationUpdateMain, applicationDisableAppRoles, h1, h2] at hmem

theorem updateMain_scopes_fail (d : AppData) (env : AppUpdateEnv)
    (h1 : env.scopesNeedDisabling = true)
    (h2 : env.disableScopes = .error ()) :
    Ev.remoteUpdate .full ∉ (applicationUpdateMain d env).1 := by
  intro hmem
  unfold applicationUpdateMain at hmem
  cases hdr : (applicationDisableAppRoles env.rolesNeedDisabling
      env.disableRoles).2 with
  | error e => simp [hdr, disableRoles_trace] at hmem
  | ok v =>
    simp [hdr, applicationDisableOauth2PermissionScopes, h1, h2,
      disableRoles_trace] at hmem

theorem updateMain_full_ordering (d : AppData) (env : AppUpdateEnv)
    (hmem : Ev.remoteUpdate .full ∈ (applicationUpdateMain d env).1) :
    (env.rolesNeedDisabling = true →
      env.disableRoles = .ok () ∧
        precedes (.remoteUpdate .disableAppRoles) (.remoteUpdate .full)
          (applicationUpdateMain d env).1 = true) ∧
    (env.scopesNeedDisabling = true →
      env.disableScopes = .ok () ∧
        precedes (.remoteUpdate .disableScopes) (.remoteUpdate .full)
          (applicationUpdateMain d env).1 = true) := by
  cases hdr : (applicationDisableAppRoles env.rolesNeedDisabling
      env.disableRoles).2 with
  | error e =>
    exfalso
    unfold applicationUpdateMain at hmem
    simp [hdr, disableRoles_trace] at hmem
  | ok v =>
    cases hds : (applicationDisableOauth2PermissionScopes
        env.scopesNeedDisabling env.disableScopes).2 with
    | error e =>
      exfalso
      unfold applicationUpdateMain at hmem
      simp [hdr, hds, disableRoles_trace, disableScopes_trace] at hmem
    | ok w =>
      have hrok : env.rolesNeedDisabling = true → env.disableRoles = .ok () := by
        intro h1
        cases henv : env.disableRoles with
        | error e =>
          exfalso
          cases e
          simp [applicationDisableAppRoles, h1, henv] at hdr
        | ok u => rfl
      have hsok : env.scopesNeedDisabling = true →
          env.disableScopes = .ok () := by
        intro h1
        cases henv : env.disableScopes with
        | error e =>
          exfalso
          cases e
          simp [applicationDisableOauth2PermissionScopes, h1, henv] at hds
        | ok u => rfl
      constructor
      · intro h1
        refine ⟨hrok h1, ?_⟩
        rw [h1] at hdr
        unfold applicationUpdateMain
        rw [h1]
        by_cases hb2 : env.scopesNeedDisabling
        · rw [hb2] at hds ⊢
          cases hu : env.update with
            | error eu =>
              simp [hdr, hds, hu, disableRoles_trace, disableScopes_trace,
                precedes]
            | ok uu =>
              cases hso : (applicationSetOwners d.id env.setOwners).2 with
              | error e =>
                simp [hdr, hds, hu, hso, disableRoles_trace,
                  disableScopes_trace, setOwners_trace, precedes]
              | ok ww =>
                simp [hdr, hds, hu, hso, disableRoles_trace,
                  disableScopes_trace, setOwners_trace, precedes]
        · have hb2f : env.scopesNeedDisabling = false := by simpa using hb2
          rw [hb2f] at hds ⊢
          cases hu : env.update with
            | error eu =>
              simp [hdr, hds, hu, disableRoles_trace, disableScopes_trace,
                precedes]
            | ok uu =>
              cases hso : (applicationSetOwners d.id env.setOwners).2 with
              | error e =>
                simp [hdr, hds, hu, hso, disableRoles_trace,
                  disableScopes_trace, setOwners_trace, precedes]
              | ok ww =>
                simp [hdr, hds, hu, hso, disableRoles_trace,
                  disableScopes_trace, setOwners_trace, precedes]
      · intro h1
        refine ⟨hsok h1, ?_⟩
        rw [h1] at hds
        unfold applicationUpdateMain
        rw [h1]
        by_cases hb1 : env.rolesNeedDisabling
        · rw [hb1] at hdr ⊢
          cases hu : env.update with
            | error eu =>
              simp [hdr, hds, hu, disableRoles_trace, disableScopes_trace,
                precedes]
            | ok uu =>
              cases hso : (applicationSetOwners d.id env.setOwners).2 with
              | error e =>
                simp [hdr, hds, hu, hso, disableRoles_trace,
                  disableScopes_trace, setOwners_trace, precedes]
              | ok ww =>
                simp [hdr, hds, hu, hso, disableRoles_trace,
                  disableScopes_trace, setOwners_trace, precedes]
        · have hb1f : env.rolesNeedDisabling = false := by simpa using hb1
          rw [hb1f] at hdr ⊢
          cases hu : env.update with
            | error eu =>
              simp [hdr, hds, hu, disableRoles_trace, disableScopes_trace,
                precedes]
            | ok uu =>
              cases hso : (applicationSetOwners d.id env.setOwners).2 with
              | error e =>
                simp [hdr, hds, hu, hso, disableRoles_trace,
                  disableScopes_trace, setOwners_trace, precedes]
              | ok ww =>
                simp [hdr, hds, hu, hso, disableRoles_trace,
                  disableScopes_trace, setOwners_trace, precedes]

/-- C7: in applicationResourceUpdate, if either the app-role disabling step
or the permission-scope disabling step is needed and fails, the full update
that removes the entries is never issued; and whenever the full update is
issued, each needed disabling update succeeded and its disabling update
precedes the full update in the trace. -/
theorem c7_disable_before_removal (d : AppData) (env : AppUpdateEnv) :
    (env.rolesNeedDisabling = true → env.disableRoles = .error () →
        Ev.remoteUpdate .full ∉ (applicationResourceUpdate d env).1) ∧
      (env.scopesNeedDisabling = true → env.disableScopes = .error () →
        Ev.remoteUpdate .full ∉ (applicationResourceUpdate d env).1) ∧
      (Ev.remoteUpdate .full ∈ (applicationResourceUpdate d env).1 →
        (env.rolesNeedDisabling = true →
          env.disableRoles = .ok () ∧
            precedes (.remoteUpdate .disableAppRoles) (.remoteUpdate .full)
              (applicationResourceUpdate d env).1 = true) ∧
        (env.scopesNeedDisabling = true →
          env.disableScopes = .ok () ∧
            precedes (.remoteUpdate .disableScopes) (.remoteUpdate .full)
              (applicationResourceUpdate d env).1 = true)) := by
  refine ⟨?_, ?_, ?_⟩
  · intro h1 h2 hmem
    cases hg : applicationUpdateDupGuard d env.findByName with
    | error e =>
      by_cases hp : d.preventDuplicateNames <;>
        simp [applicationResourceUpdate, hg, hp] at hmem
    | ok v =>
      have hmem2 : Ev.remoteUpdate .full ∈ (applicationUpdateMain d env).1 := by
        by_cases hp : d.preventDuplicateNames <;>
          simpa [applicationResourceUpdate, hg, hp] using hmem
      exact updateMain_roles_fail d env h1 h2 hmem2
  · intro h1 h2 hmem
    cases hg : applicationUpdateDupGuard d env.findByName with
    | error e =>
      by_cases hp : d.preventDuplicateNames <;>
        simp [applicationResourceUpdate, hg, hp] at hmem
    | ok v =>
      have hmem2 : Ev.remoteUpdate .full ∈ (applicationUpdateMain d env).1 := by
        by_cases hp : d.preventDuplicateNames <;>
          simpa [applicationResourceUpdate, hg, hp] using hmem
      exact updateMain_scopes_fail d env h1 h2 hmem2
  · intro hmem
    cases hg : applicationUpdateDupGuard d env.findByName with
    | error e =>
      by_cases hp : d.preventDuplicateNames <;>
        simp [applicationResourceUpdate, hg, hp] at hmem
    | ok v =>
      have hmem2 : Ev.remoteUpdate .full ∈ (applicationUpdateMain d env).1 := by
        by_cases hp : d.preventDuplicateNames <;>
          simpa [applicationResourceUpdate, hg, hp] using hmem
      obtain ⟨hr, hs⟩ := updateMain_full_ordering d env hmem2
      constructor
      · intro h1
        obtain ⟨ha, hb⟩ := hr h1
        refine ⟨ha, ?_⟩
        by_cases hp : d.preventDuplicateNames <;>
          simpa [applicationResourceUpdate, hg, hp, precedes] using hb
      · intro h1
        obtain ⟨ha, hb⟩ := hs h1
        refine ⟨ha, ?_⟩
        by_cases hp : d.preventDuplicateNames <;>
          simpa [applicationResourceUpdate, hg, hp, precedes] using hb

/-- C7, witness: with a concrete environment in which the app-role disabling
step is needed and fails, the full update is absent from the trace. -/
theorem c7_disable_before_removal_witness :
    Ev.remoteUpdate .full ∉
      (applicationResourceUpdate exAppData
        { exAppUpdateEnv with
            findByName := .ok none
            rolesNeedDisabling := true
            disableRoles := .error () }).1 :=
  (c7_disable_before_removal exAppData
    { exAppUpdateEnv with
        findByName := .ok none
        rolesNeedDisabling := true
        disableRoles := .error () }).1 rfl rfl

/-- A concrete application password resource data value. -/
def exPwData : AppPasswordData :=
  { id := "0b/password/4f".toList
    applicationObjectId := "0b".toList
    attrs := [] }

/-- A concrete remote application whose id matches exPwData's parent id. -/
def exMsAppForPw : MsApplication :=
  { exMsAppNilId with id := some "0b".toList, passwordCredentials := some [] }

/-- A concrete environment for applicationPasswordResourceCreate. -/
def exPwCreateEnv : AppPwCreateEnv :=
  { credGen := .ok (some ())
    get := .ok (some exMsAppForPw)
    addPassword := .ok (some
      { keyId := some "4f".toList
        secretText := some "s3cret".toList
        displayName := none
        startDateTime := none
        endDateTime := none })
    read := { get := .notFound } }

/-- C2, witness: the lock discipline holds on concrete runs of the password
create, the password delete and the application create. -/
theorem c2_name_lock_discipline_witness :
    locksOk [] (applicationPasswordResourceCreate exPwData exPwCreateEnv).1 =
        true ∧
      locksOk [] (applicationPasswordResourceDelete exPwData
        { removePassword := .ok () }).1 = true ∧
      locksOk [] (applicationResourceCreate exAppData
        { findByName := .ok none, create := .ok exMsAppForPw,
          setOwners := .ok (),
          read := { get := .notFound, listOwners := .notFound } }).1 = true :=
  c2_name_lock_discipline exPwData exPwCreateEnv
    (by
      intro app h
      have h2 : GetRes.ok (some exMsAppForPw) = GetRes.ok (some app) := h
      injection h2 with h3
      injection h3 with h4
      rw [← h4]
      rfl)
    exPwData { removePassword := .ok () } exAppData
    { findByName := .ok none, create := .ok exMsAppForPw, setOwners := .ok (),
      read := { get := .notFound, listOwners := .notFound } }

/-- A concrete create environment whose owners follow-up write fails. -/
def exC5Env : AppCreateEnv :=
  { findByName := .ok none
    create := .ok exMsAppForPw
    setOwners := .error ()
    read := { get := .notFound, listOwners := .notFound } }

/-- C5, witness: on a concrete create whose owners follow-up write fails, the
identifier is persisted before the owners write, no remote delete happens,
the error is surfaced and the identifier is kept. -/
theorem c5_create_identity_persisted_first_witness :
    precedes (.setId "0b".toList) (.remoteSetOwners "0b".toList)
        (applicationResourceCreate exAppData exC5Env).1 = true ∧
      (∀ x, Ev.remoteDelete x ∉
        (applicationResourceCreate exAppData exC5Env).1) ∧
      (exC5Env.setOwners = .error () →
        (applicationResourceCreate exAppData exC5Env).2.2 =
            .error .remoteError ∧
          (applicationResourceCreate exAppData exC5Env).2.1.id =
            "0b".toList) :=
  c5_create_identity_persisted_first exAppData exC5Env exMsAppForPw
    "0b".toList rfl rfl (by decide) rfl
